import Mathlib

/-!
Shallow embedding of the bytecode-interpreter core of a small JVM written in
Rust.  The definitions below are translated from src/runtime/frame.rs (opcode
handlers of the Frame struct, the array_store!/iarray_load! macros and the
exception plumbing) and from src/native/java_lang_Double.rs and
src/native/java_lang_Float.rs (raw bit conversions).

Modelling conventions:
* Machine integers i32/i64 are Lean Int, with two's-complement wrapping made
  explicit (wrap32/wrap64) exactly where the source uses wrapping_add etc.
  Rust operations that can panic (overflow of unchecked arithmetic, integer
  division overflow, unreachable!/unimplemented! arms, ill-typed stack slots)
  are modelled by Option: none is a host-level abort, never a Java exception.
* Rust f32/f64 values are modelled by JFloat, which keeps exactly the
  structure the embedded claims depend on: NaN, the two infinities, and finite
  values as rationals (both IEEE zeros collapse to 0, which agrees with IEEE
  comparison semantics; rounding of inexact results is not modelled and no
  modelled theorem depends on it).  For the raw-bit natives, f64/f32 values
  are instead carried as their IEEE bit patterns (F64/F32), since those
  functions only transmute bits and never do arithmetic.
* The operand stack is a list of tagged values, head = top of stack; a
  long/double is one logical entry (the two-slot discipline of the concrete
  Stack type is internal to it and not observable in the claims).
* The heap is a list of objects addressed by position; an object reference is
  Option Nat with none = Java null.
* A pending exception is recorded as the pair (class name, optional message).
  This models exception::new (runtime/exception.rs, which is not under src/):
  per the spec's error-handling design it builds a guest exception object of
  the given class carrying the given message, and meet_ex stores it in the
  thread's pending-exception slot.  The class-name constants J_NPE etc.
  (classfile/consts.rs, also not under src/) are the JVM-internal names the
  spec's taxonomy lists.
-/

/-- Comparison-level abstraction of an IEEE-754 f32/f64 value: NaN, the two
infinities, or a finite value as a rational. -/
inductive JFloat where
  | nan
  | negInf
  | finite (q : ℚ)
  | posInf
  deriving DecidableEq

/-- Rust is_nan. -/
def jfIsNan : JFloat → Bool
  | .nan => true
  | _ => false

/-- IEEE strict less-than: false whenever either side is NaN. -/
def jfLt : JFloat → JFloat → Bool
  | .nan, _ => false
  | _, .nan => false
  | .negInf, .negInf => false
  | .negInf, _ => true
  | _, .negInf => false
  | .posInf, _ => false
  | _, .posInf => true
  | .finite a, .finite b => decide (a < b)

/-- IEEE greater-than, as Rust evaluates v1 > v2. -/
def jfGt (a b : JFloat) : Bool := jfLt b a

/-- IEEE equality: false whenever either side is NaN. -/
def jfEq : JFloat → JFloat → Bool
  | .negInf, .negInf => true
  | .posInf, .posInf => true
  | .finite a, .finite b => decide (a = b)
  | _, _ => false

/-- IEEE division on the JFloat abstraction (exact on finite values; the
  opcodes guard the divisor-zero case before calling this, so the zero-divisor
  rows here only fix a total function). -/
def jfDiv : JFloat → JFloat → JFloat
  | .nan, _ => .nan
  | _, .nan => .nan
  | .posInf, .posInf => .nan
  | .posInf, .negInf => .nan
  | .negInf, .posInf => .nan
  | .negInf, .negInf => .nan
  | .posInf, .finite q => if q < 0 then .negInf else .posInf
  | .negInf, .finite q => if q < 0 then .posInf else .negInf
  | .finite _, .posInf => .finite 0
  | .finite _, .negInf => .finite 0
  | .finite a, .finite b =>
      if b = 0 then (if a = 0 then .nan else if a < 0 then .negInf else .posInf)
      else .finite (a / b)

/-- Tagged operand-stack value (the Oop variants the claims touch; instance
and array oops live in the heap and are referred to through vRef). -/
inductive Val where
  | vInt (i : Int)
  | vLong (l : Int)
  | vFloat (f : JFloat)
  | vDouble (d : JFloat)
  | vRef (r : Option Nat)
  deriving DecidableEq

/-- A pending guest exception: class internal name plus optional message
(models the exception oop built by exception::new). -/
structure JEx where
  cls : String
  msg : Option String
  deriving DecidableEq

/-- Heap object: an instance (its class name) or one of the array variants of
Oop::TypeArray / Oop::Array.  Element lists mirror the Rust element vectors:
byte/bool arrays hold u8 values (0..255), char arrays u16 values, short
arrays i16 values, int/long arrays i32/i64 values — the store opcodes below
perform exactly the source's narrowing casts, so every stored element is in
its vector's range.  The reference-array class field is not modelled (no
claim reads it). -/
inductive HObj where
  | inst (cls : String)
  | byteAry (elems : List Int)
  | boolAry (elems : List Int)
  | charAry (elems : List Int)
  | shortAry (elems : List Int)
  | intAry (elems : List Int)
  | longAry (elems : List Int)
  | floatAry (elems : List JFloat)
  | doubleAry (elems : List JFloat)
  | refAry (elems : List (Option Nat))
  deriving DecidableEq

/-- The state an opcode handler acts on: operand stack, heap, and the
thread's pending-exception slot. -/
structure VMState where
  stack : List Val
  heap : List HObj
  ex : Option JEx
  deriving DecidableEq

def J_NPE : String := "java/lang/NullPointerException"

def J_ARITHMETIC_EX : String := "java/lang/ArithmeticException"

def J_ARRAY_INDEX_OUT_OF_BOUNDS : String := "java/lang/ArrayIndexOutOfBoundsException"

/-- meet_ex: build an exception oop and set it as the thread's pending
exception (frame.rs lines 19-22). -/
def meet_ex (st : VMState) (cls : String) (msg : Option String) : VMState :=
  { st with ex := some ⟨cls, msg⟩ }

def i32min : Int := -(2 ^ 31)

def i32max : Int := 2 ^ 31 - 1

def i64min : Int := -(2 ^ 63)

def i64max : Int := 2 ^ 63 - 1

/-- Two's-complement wrap to 32 bits (Rust wrapping_add/sub/mul on i32). -/
def wrap32 (n : Int) : Int := (n + 2 ^ 31) % 2 ^ 32 - 2 ^ 31

/-- Two's-complement wrap to 64 bits. -/
def wrap64 (n : Int) : Int := (n + 2 ^ 63) % 2 ^ 64 - 2 ^ 63

/-- Sign-extend the low 8 bits (Rust `as i8` then `as i32`). -/
def wrap8 (n : Int) : Int := (n + 2 ^ 7) % 2 ^ 8 - 2 ^ 7

/-- Sign-extend the low 16 bits (Rust `as i16` then `as i32`). -/
def wrap16 (n : Int) : Int := (n + 2 ^ 15) % 2 ^ 16 - 2 ^ 15

/-- The AIOOBE message built by the array_store!/iarray_load! macros:
format is the source's "length is .., but index is ..". -/
def index_oob_msg (len : Nat) (pos : Int) : String :=
  "length is " ++ toString len ++ ", but index is " ++ toString pos

/-- The AIOOBE pending-exception value for a failed bounds check. -/
def index_oob_ex (len : Nat) (pos : Int) : JEx :=
  ⟨J_ARRAY_INDEX_OUT_OF_BOUNDS, some (index_oob_msg len pos)⟩

/-- Frame::iadd — wrapping_add on i32. -/
def iadd (st : VMState) : Option VMState :=
  match st.stack with
  | .vInt v2 :: .vInt v1 :: rest => some { st with stack := .vInt (wrap32 (v1 + v2)) :: rest }
  | _ => none

/-- Frame::ladd — wrapping_add on i64. -/
def ladd (st : VMState) : Option VMState :=
  match st.stack with
  | .vLong v2 :: .vLong v1 :: rest => some { st with stack := .vLong (wrap64 (v1 + v2)) :: rest }
  | _ => none

/-- Frame::isub — wrapping_sub on i32. -/
def isub (st : VMState) : Option VMState :=
  match st.stack with
  | .vInt v2 :: .vInt v1 :: rest => some { st with stack := .vInt (wrap32 (v1 - v2)) :: rest }
  | _ => none

/-- Frame::lsub — wrapping_sub on i64. -/
def lsub (st : VMState) : Option VMState :=
  match st.stack with
  | .vLong v2 :: .vLong v1 :: rest => some { st with stack := .vLong (wrap64 (v1 - v2)) :: rest }
  | _ => none

/-- Frame::imul — wrapping_mul on i32. -/
def imul (st : VMState) : Option VMState :=
  match st.stack with
  | .vInt v2 :: .vInt v1 :: rest => some { st with stack := .vInt (wrap32 (v1 * v2)) :: rest }
  | _ => none

/-- Frame::lmul — wrapping_mul on i64. -/
def lmul (st : VMState) : Option VMState :=
  match st.stack with
  | .vLong v2 :: .vLong v1 :: rest => some { st with stack := .vLong (wrap64 (v1 * v2)) :: rest }
  | _ => none

/-- Frame::ineg — the source negates with the unchecked `-` operator, which
overflows at i32::MIN: under Rust's checked arithmetic (the default dev/test
profile) that is a panic, modelled as none. -/
def ineg (st : VMState) : Option VMState :=
  match st.stack with
  | .vInt v :: rest => if v = i32min then none else some { st with stack := .vInt (-v) :: rest }
  | _ => none

/-- Frame::lneg — unchecked `-` on i64, overflow panic at i64::MIN. -/
def lneg (st : VMState) : Option VMState :=
  match st.stack with
  | .vLong v :: rest => if v = i64min then none else some { st with stack := .vLong (-v) :: rest }
  | _ => none

/-- Frame::idiv — zero divisor raises ArithmeticException("divide by zero");
otherwise Rust i32 division truncates toward zero and panics on the one
overflowing pair (i32::MIN, -1). -/
def idiv (st : VMState) : Option VMState :=
  match st.stack with
  | .vInt v2 :: .vInt v1 :: rest =>
      if v2 = 0 then some (meet_ex { st with stack := rest } J_ARITHMETIC_EX (some ("divide by zero")))
      else if v1 = i32min ∧ v2 = -1 then none
      else some { st with stack := .vInt (Int.tdiv v1 v2) :: rest }
  | _ => none

/-- Frame::ldiv — as idiv on i64. -/
def ldiv (st : VMState) : Option VMState :=
  match st.stack with
  | .vLong v2 :: .vLong v1 :: rest =>
      if v2 = 0 then some (meet_ex { st with stack := rest } J_ARITHMETIC_EX (some ("divide by zero")))
      else if v1 = i64min ∧ v2 = -1 then none
      else some { st with stack := .vLong (Int.tdiv v1 v2) :: rest }
  | _ => none

/-- Frame::irem — zero divisor raises ArithmeticException("divide by zero");
otherwise pushes v1 - (v1 / v2) * v2 with Rust division (panic at MIN, -1). -/
def irem (st : VMState) : Option VMState :=
  match st.stack with
  | .vInt v2 :: .vInt v1 :: rest =>
      if v2 = 0 then some (meet_ex { st with stack := rest } J_ARITHMETIC_EX (some ("divide by zero")))
      else if v1 = i32min ∧ v2 = -1 then none
      else some { st with stack := .vInt (v1 - Int.tdiv v1 v2 * v2) :: rest }
  | _ => none

/-- Frame::lrem — as irem on i64. -/
def lrem (st : VMState) : Option VMState :=
  match st.stack with
  | .vLong v2 :: .vLong v1 :: rest =>
      if v2 = 0 then some (meet_ex { st with stack := rest } J_ARITHMETIC_EX (some ("divide by zero")))
      else if v1 = i64min ∧ v2 = -1 then none
      else some { st with stack := .vLong (v1 - Int.tdiv v1 v2 * v2) :: rest }
  | _ => none

/-- Frame::fdiv — the source tests v2 == 0.0 (true for either IEEE zero,
false for NaN) and raises ArithmeticException("divide by zero") instead of
performing the IEEE division. -/
def fdiv (st : VMState) : Option VMState :=
  match st.stack with
  | .vFloat v2 :: .vFloat v1 :: rest =>
      if v2 = .finite 0 then some (meet_ex { st with stack := rest } J_ARITHMETIC_EX (some ("divide by zero")))
      else some { st with stack := .vFloat (jfDiv v1 v2) :: rest }
  | _ => none

/-- Frame::ddiv — as fdiv on doubles. -/
def ddiv (st : VMState) : Option VMState :=
  match st.stack with
  | .vDouble v2 :: .vDouble v1 :: rest =>
      if v2 = .finite 0 then some (meet_ex { st with stack := rest } J_ARITHMETIC_EX (some ("divide by zero")))
      else some { st with stack := .vDouble (jfDiv v1 v2) :: rest }
  | _ => none

/-- Truncation toward zero of a rational (the core of a Rust float-to-int
`as` cast before saturation). -/
def jtrunc (q : ℚ) : Int := Int.tdiv q.num q.den

/-- Saturate to the i32 range (Rust `as i32` from a float saturates). -/
def sat32 (n : Int) : Int := if n < i32min then i32min else if i32max < n then i32max else n

/-- Saturate to the i64 range. -/
def sat64 (n : Int) : Int := if n < i64min then i64min else if i64max < n then i64max else n

/-- Frame::f2i — NaN to 0, infinities to the saturated bounds, finite values
through Rust's saturating truncating cast. -/
def f2i (st : VMState) : Option VMState :=
  match st.stack with
  | .vFloat v :: rest =>
      some { st with stack := .vInt (match v with
        | .nan => 0
        | .posInf => i32max
        | .negInf => i32min
        | .finite q => sat32 (jtrunc q)) :: rest }
  | _ => none

/-- Frame::f2l. -/
def f2l (st : VMState) : Option VMState :=
  match st.stack with
  | .vFloat v :: rest =>
      some { st with stack := .vLong (match v with
        | .nan => 0
        | .posInf => i64max
        | .negInf => i64min
        | .finite q => sat64 (jtrunc q)) :: rest }
  | _ => none

/-- Frame::d2i. -/
def d2i (st : VMState) : Option VMState :=
  match st.stack with
  | .vDouble v :: rest =>
      some { st with stack := .vInt (match v with
        | .nan => 0
        | .posInf => i32max
        | .negInf => i32min
        | .finite q => sat32 (jtrunc q)) :: rest }
  | _ => none

/-- Frame::d2l. -/
def d2l (st : VMState) : Option VMState :=
  match st.stack with
  | .vDouble v :: rest =>
      some { st with stack := .vLong (match v with
        | .nan => 0
        | .posInf => i64max
        | .negInf => i64min
        | .finite q => sat64 (jtrunc q)) :: rest }
  | _ => none

/-- Frame::i2b — `v as i8 as i32`: sign-extend the low 8 bits. -/
def i2b (st : VMState) : Option VMState :=
  match st.stack with
  | .vInt v :: rest => some { st with stack := .vInt (wrap8 v) :: rest }
  | _ => none

/-- Frame::i2c — `v as u16 as i32`: zero-extend the low 16 bits. -/
def i2c (st : VMState) : Option VMState :=
  match st.stack with
  | .vInt v :: rest => some { st with stack := .vInt (v % 2 ^ 16) :: rest }
  | _ => none

/-- Frame::i2s — `v as i16 as i32`: sign-extend the low 16 bits. -/
def i2s (st : VMState) : Option VMState :=
  match st.stack with
  | .vInt v :: rest => some { st with stack := .vInt (wrap16 v) :: rest }
  | _ => none

/-- Frame::lcmp — note the source pops v1 first, so its v1 is the TOP of the
stack (the JVM's value2). -/
def lcmp (st : VMState) : Option VMState :=
  match st.stack with
  | .vLong v1 :: .vLong v2 :: rest =>
      let r : Int := if v1 > v2 then -1 else if v1 < v2 then 1 else 0
      some { st with stack := .vInt r :: rest }
  | _ => none

/-- Frame::fcmpl — v1 is the first pop (top of stack); NaN yields -1. -/
def fcmpl (st : VMState) : Option VMState :=
  match st.stack with
  | .vFloat v1 :: .vFloat v2 :: rest =>
      let r : Int := if jfIsNan v1 || jfIsNan v2 then -1
        else if jfGt v1 v2 then -1
        else if jfLt v1 v2 then 1 else 0
      some { st with stack := .vInt r :: rest }
  | _ => none

/-- Frame::fcmpg — NaN yields +1. -/
def fcmpg (st : VMState) : Option VMState :=
  match st.stack with
  | .vFloat v1 :: .vFloat v2 :: rest =>
      let r : Int := if jfIsNan v1 || jfIsNan v2 then 1
        else if jfGt v1 v2 then -1
        else if jfLt v1 v2 then 1 else 0
      some { st with stack := .vInt r :: rest }
  | _ => none

/-- Frame::dcmpl. -/
def dcmpl (st : VMState) : Option VMState :=
  match st.stack with
  | .vDouble v1 :: .vDouble v2 :: rest =>
      let r : Int := if jfIsNan v1 || jfIsNan v2 then -1
        else if jfGt v1 v2 then -1
        else if jfLt v1 v2 then 1 else 0
      some { st with stack := .vInt r :: rest }
  | _ => none

/-- Frame::dcmpg. -/
def dcmpg (st : VMState) : Option VMState :=
  match st.stack with
  | .vDouble v1 :: .vDouble v2 :: rest =>
      let r : Int := if jfIsNan v1 || jfIsNan v2 then 1
        else if jfGt v1 v2 then -1
        else if jfLt v1 v2 then 1 else 0
      some { st with stack := .vInt r :: rest }
  | _ => none

/-- Body of the iarray_load! macro (frame.rs lines 40-54), shared by the
int-like array loads: bounds-check, then either raise AIOOBE with the
"length is .., but index is .." message or push the element as an int.
Element values are already in i32 form per the HObj conventions, matching
the macro's `as i32` on the source element types. -/
def iarray_load (st : VMState) (rest : List Val) (elems : List Int) (pos : Int) : VMState :=
  if pos < 0 ∨ elems.length ≤ pos.toNat then
    { st with stack := rest, ex := some (index_oob_ex elems.length pos) }
  else
    { st with stack := .vInt (elems.getD pos.toNat 0) :: rest }

/-- Body of the array_store! macro (frame.rs lines 24-38): bounds-check, then
either raise AIOOBE (leaving the array untouched) or overwrite the element at
the index.  The heap object at address a is rebuilt from the updated element
list; v has already undergone the opcode's narrowing cast. -/
def array_store {α : Type} (st : VMState) (rest : List Val) (a : Nat) (rebuild : List α → HObj)
    (elems : List α) (pos : Int) (v : α) : VMState :=
  if pos < 0 ∨ elems.length ≤ pos.toNat then
    { st with stack := rest, ex := some (index_oob_ex elems.length pos) }
  else
    { st with stack := rest, heap := st.heap.set a (rebuild (elems.set pos.toNat v)) }

/-- Frame::iaload — pops the index, then the array reference; Null raises
NPE, otherwise the iarray_load! macro runs on the Int element vector (any
other oop shape is an unreachable! panic). -/
def iaload (st : VMState) : Option VMState :=
  match st.stack with
  | .vInt pos :: .vRef none :: rest => some (meet_ex { st with stack := rest } J_NPE none)
  | .vInt pos :: .vRef (some a) :: rest =>
      match st.heap.get? a with
      | some (.intAry ary) => some (iarray_load st rest ary pos)
      | _ => none
  | _ => none

/-- Frame::saload. -/
def saload (st : VMState) : Option VMState :=
  match st.stack with
  | .vInt pos :: .vRef none :: rest => some (meet_ex { st with stack := rest } J_NPE none)
  | .vInt pos :: .vRef (some a) :: rest =>
      match st.heap.get? a with
      | some (.shortAry ary) => some (iarray_load st rest ary pos)
      | _ => none
  | _ => none

/-- Frame::caload. -/
def caload (st : VMState) : Option VMState :=
  match st.stack with
  | .vInt pos :: .vRef none :: rest => some (meet_ex { st with stack := rest } J_NPE none)
  | .vInt pos :: .vRef (some a) :: rest =>
      match st.heap.get? a with
      | some (.charAry ary) => some (iarray_load st rest ary pos)
      | _ => none
  | _ => none

/-- Frame::baload — serves both byte[] and boolean[]. -/
def baload (st : VMState) : Option VMState :=
  match st.stack with
  | .vInt pos :: .vRef none :: rest => some (meet_ex { st with stack := rest } J_NPE none)
  | .vInt pos :: .vRef (some a) :: rest =>
      match st.heap.get? a with
      | some (.byteAry ary) => some (iarray_load st rest ary pos)
      | some (.boolAry ary) => some (iarray_load st rest ary pos)
      | _ => none
  | _ => none

/-- Frame::laload — inline bounds check (frame.rs lines 993-1015). -/
def laload (st : VMState) : Option VMState :=
  match st.stack with
  | .vInt pos :: .vRef none :: rest => some (meet_ex { st with stack := rest } J_NPE none)
  | .vInt pos :: .vRef (some a) :: rest =>
      match st.heap.get? a with
      | some (.longAry ary) =>
          some (if pos < 0 ∨ ary.length ≤ pos.toNat then
                  { st with stack := rest, ex := some (index_oob_ex ary.length pos) }
                else { st with stack := .vLong (ary.getD pos.toNat 0) :: rest })
      | _ => none
  | _ => none

/-- Frame::faload. -/
def faload (st : VMState) : Option VMState :=
  match st.stack with
  | .vInt pos :: .vRef none :: rest => some (meet_ex { st with stack := rest } J_NPE none)
  | .vInt pos :: .vRef (some a) :: rest =>
      match st.heap.get? a with
      | some (.floatAry ary) =>
          some (if pos < 0 ∨ ary.length ≤ pos.toNat then
                  { st with stack := rest, ex := some (index_oob_ex ary.length pos) }
                else { st with stack := .vFloat (ary.getD pos.toNat .nan) :: rest })
      | _ => none
  | _ => none

/-- Frame::daload. -/
def daload (st : VMState) : Option VMState :=
  match st.stack with
  | .vInt pos :: .vRef none :: rest => some (meet_ex { st with stack := rest } J_NPE none)
  | .vInt pos :: .vRef (some a) :: rest =>
      match st.heap.get? a with
      | some (.doubleAry ary) =>
          some (if pos < 0 ∨ ary.length ≤ pos.toNat then
                  { st with stack := rest, ex := some (index_oob_ex ary.length pos) }
                else { st with stack := .vDouble (ary.getD pos.toNat .nan) :: rest })
      | _ => none
  | _ => none

/-- Frame::aaload — reference-array load (frame.rs lines 1065-1086). -/
def aaload (st : VMState) : Option VMState :=
  match st.stack with
  | .vInt pos :: .vRef none :: rest => some (meet_ex { st with stack := rest } J_NPE none)
  | .vInt pos :: .vRef (some a) :: rest =>
      match st.heap.get? a with
      | some (.refAry ary) =>
          some (if pos < 0 ∨ ary.length ≤ pos.toNat then
                  { st with stack := rest, ex := some (index_oob_ex ary.length pos) }
                else { st with stack := .vRef (ary.getD pos.toNat none) :: rest })
      | _ => none
  | _ => none

/-- Frame::iastore — pops the value, then the index, then the array
reference; Null raises NPE, otherwise array_store! runs. -/
def iastore (st : VMState) : Option VMState :=
  match st.stack with
  | .vInt v :: .vInt pos :: .vRef none :: rest => some (meet_ex { st with stack := rest } J_NPE none)
  | .vInt v :: .vInt pos :: .vRef (some a) :: rest =>
      match st.heap.get? a with
      | some (.intAry ary) => some (array_store st rest a .intAry ary pos v)
      | _ => none
  | _ => none

/-- Frame::lastore. -/
def lastore (st : VMState) : Option VMState :=
  match st.stack with
  | .vLong v :: .vInt pos :: .vRef none :: rest => some (meet_ex { st with stack := rest } J_NPE none)
  | .vLong v :: .vInt pos :: .vRef (some a) :: rest =>
      match st.heap.get? a with
      | some (.longAry ary) => some (array_store st rest a .longAry ary pos v)
      | _ => none
  | _ => none

/-- Frame::fastore. -/
def fastore (st : VMState) : Option VMState :=
  match st.stack with
  | .vFloat v :: .vInt pos :: .vRef none :: rest => some (meet_ex { st with stack := rest } J_NPE none)
  | .vFloat v :: .vInt pos :: .vRef (some a) :: rest =>
      match st.heap.get? a with
      | some (.floatAry ary) => some (array_store st rest a .floatAry ary pos v)
      | _ => none
  | _ => none

/-- Frame::dastore. -/
def dastore (st : VMState) : Option VMState :=
  match st.stack with
  | .vDouble v :: .vInt pos :: .vRef none :: rest => some (meet_ex { st with stack := rest } J_NPE none)
  | .vDouble v :: .vInt pos :: .vRef (some a) :: rest =>
      match st.heap.get? a with
      | some (.doubleAry ary) => some (array_store st rest a .doubleAry ary pos v)
      | _ => none
  | _ => none

/-- Frame::bastore — narrows with `v as u8`; serves byte[] and boolean[]. -/
def bastore (st : VMState) : Option VMState :=
  match st.stack with
  | .vInt v :: .vInt pos :: .vRef none :: rest => some (meet_ex { st with stack := rest } J_NPE none)
  | .vInt v :: .vInt pos :: .vRef (some a) :: rest =>
      match st.heap.get? a with
      | some (.byteAry ary) => some (array_store st rest a .byteAry ary pos (v % 2 ^ 8))
      | some (.boolAry ary) => some (array_store st rest a .boolAry ary pos (v % 2 ^ 8))
      | _ => none
  | _ => none

/-- Frame::castore — narrows with `v as u16`. -/
def castore (st : VMState) : Option VMState :=
  match st.stack with
  | .vInt v :: .vInt pos :: .vRef none :: rest => some (meet_ex { st with stack := rest } J_NPE none)
  | .vInt v :: .vInt pos :: .vRef (some a) :: rest =>
      match st.heap.get? a with
      | some (.charAry ary) => some (array_store st rest a .charAry ary pos (v % 2 ^ 16))
      | _ => none
  | _ => none

/-- Frame::sastore — narrows with `v as i16`. -/
def sastore (st : VMState) : Option VMState :=
  match st.stack with
  | .vInt v :: .vInt pos :: .vRef none :: rest => some (meet_ex { st with stack := rest } J_NPE none)
  | .vInt v :: .vInt pos :: .vRef (some a) :: rest =>
      match st.heap.get? a with
      | some (.shortAry ary) => some (array_store st rest a .shortAry ary pos (wrap16 v))
      | _ => none
  | _ => none

/-- Frame::aastore — stores the reference with no assignability check (the
spec notes the missing ArrayStoreException check). -/
def aastore (st : VMState) : Option VMState :=
  match st.stack with
  | .vRef v :: .vInt pos :: .vRef none :: rest => some (meet_ex { st with stack := rest } J_NPE none)
  | .vRef v :: .vInt pos :: .vRef (some a) :: rest =>
      match st.heap.get? a with
      | some (.refAry ary) => some (array_store st rest a .refAry ary pos v)
      | _ => none
  | _ => none

/-- Class environment for assignability: the superclass edge and the direct
interfaces of each class, by JVM internal name. -/
structure ClassEnv where
  superOf : String → Option String
  interfacesOf : String → List String

/-- Modelled from the spec: cmp::instance_of (runtime/cmp.rs, not under src/)
decides whether class s is assignable to class t — true when s = t, or when
the superclass chain or an implemented interface of s is assignable to t.
The explicit fuel bounds the recursion through superclass/interface edges. -/
def cmp_instance_of (env : ClassEnv) : Nat → String → String → Bool
  | 0, _, _ => false
  | fuel + 1, s, t =>
    (s == t) ||
    (match env.superOf s with
     | some sup => cmp_instance_of env fuel sup t
     | none => false) ||
    (env.interfacesOf s).any (fun i => cmp_instance_of env fuel i t)

/-- Frame::instance_of (frame.rs lines 2514-2534) — pops the reference; Null
gives false, an instance consults cmp::instance_of, and any other oop shape
(arrays, mirrors) hits the unimplemented! arm, modelled as none.  The result
is pushed as int 1 (push_const1) when true and int 0 (push_const0) when
false.  The target class is passed directly, abstracting the constant-pool
resolution (require_class2, not under src/). -/
def instance_of (env : ClassEnv) (fuel : Nat) (target : String) (st : VMState) : Option VMState :=
  match st.stack with
  | .vRef none :: rest => some { st with stack := .vInt 0 :: rest }
  | .vRef (some a) :: rest =>
      match st.heap.get? a with
      | some (.inst cls) =>
          some { st with stack := .vInt (if cmp_instance_of env fuel cls target then 1 else 0) :: rest }
      | _ => none
  | _ => none

/-- An f64 value carried as its IEEE-754 bit pattern (the Double natives only
transmute bits, so the pattern is a complete representation there). -/
structure F64 where
  bits : Nat
  deriving DecidableEq

/-- An f32 value carried as its IEEE-754 bit pattern. -/
structure F32 where
  bits : Nat
  deriving DecidableEq

/-- Rust u64::to_be_bytes, big-endian. -/
def u64ToBeBytes (n : Nat) : List Nat :=
  [n / 2 ^ 56 % 2 ^ 8, n / 2 ^ 48 % 2 ^ 8, n / 2 ^ 40 % 2 ^ 8, n / 2 ^ 32 % 2 ^ 8,
   n / 2 ^ 24 % 2 ^ 8, n / 2 ^ 16 % 2 ^ 8, n / 2 ^ 8 % 2 ^ 8, n % 2 ^ 8]

/-- Rust u32::to_be_bytes. -/
def u32ToBeBytes (n : Nat) : List Nat :=
  [n / 2 ^ 24 % 2 ^ 8, n / 2 ^ 16 % 2 ^ 8, n / 2 ^ 8 % 2 ^ 8, n % 2 ^ 8]

/-- Recompose big-endian bytes into the unsigned value. -/
def beBytesToNat (bs : List Nat) : Nat :=
  bs.foldl (fun acc b => acc * 2 ^ 8 + b) 0

/-- Reinterpret an unsigned 64-bit value as i64 (two's complement). -/
def toSigned64 (n : Nat) : Int :=
  if n % 2 ^ 64 < 2 ^ 63 then ((n % 2 ^ 64 : Nat) : Int) else ((n % 2 ^ 64 : Nat) : Int) - 2 ^ 64

/-- Reinterpret an unsigned 32-bit value as i32. -/
def toSigned32 (n : Nat) : Int :=
  if n % 2 ^ 32 < 2 ^ 31 then ((n % 2 ^ 32 : Nat) : Int) else ((n % 2 ^ 32 : Nat) : Int) - 2 ^ 32

/-- Reinterpret an i64 as u64. -/
def toUnsigned64 (v : Int) : Nat := (v % 2 ^ 64).toNat

/-- Rust f64::to_bits — the raw transmute of the value's bit pattern. -/
def f64ToBits (d : F64) : Nat := d.bits % 2 ^ 64

/-- Rust f64::from_be_bytes — from_bits of the recomposed u64. -/
def f64FromBeBytes (bs : List Nat) : F64 := ⟨beBytesToNat bs % 2 ^ 64⟩

/-- jvm_doubleToRawLongBits (java_lang_Double.rs lines 20-26):
v.to_bits().to_be_bytes() reassembled by i64::from_be_bytes. -/
def jvm_doubleToRawLongBits (d : F64) : Int :=
  toSigned64 (beBytesToNat (u64ToBeBytes (f64ToBits d)))

/-- jvm_longBitsToDouble (java_lang_Double.rs lines 28-34):
v.to_be_bytes() reassembled by f64::from_be_bytes. -/
def jvm_longBitsToDouble (v : Int) : F64 :=
  f64FromBeBytes (u64ToBeBytes (toUnsigned64 v))

/-- jvm_floatToRawIntBits (java_lang_Float.rs lines 17-23):
v.to_bits().to_be_bytes() reassembled by i32::from_be_bytes. -/
def jvm_floatToRawIntBits (f : F32) : Int :=
  toSigned32 (beBytesToNat (u32ToBeBytes (f.bits % 2 ^ 32)))

/-- Exception-table entry; catchType none models catch_type index 0, the
catch-all entry. -/
structure ExEntry where
  startPc : Nat
  endPc : Nat
  handlerPc : Nat
  catchType : Option String
  deriving DecidableEq

/-- The micro instruction set of the frame-loop model: enough opcodes to
exercise the pending-exception path (decode from bytes, classfile/opcode.rs,
is not under src/, so code is a list of opcodes directly). -/
inductive OpCode where
  | nop
  | athrow
  | iaload
  deriving DecidableEq

/-- Frame-loop state: bytecode, program counter, operand stack, heap, the
method's exception table, and the thread's pending-exception slot (holding an
oop reference; none in the inner option is Java null). -/
structure FrameState where
  code : List OpCode
  pc : Nat
  stack : List Val
  heap : List HObj
  exTable : List ExEntry
  pending : Option (Option Nat)
  deriving DecidableEq

/-- Does an exception-table entry match: its range [start_pc, end_pc) covers
pc and its catch type is the catch-all or is assignable from the exception's
class (assignability abstracted as the isA parameter). -/
def entry_matches (isA : String → String → Bool) (pc : Nat) (exCls : String) (e : ExEntry) : Bool :=
  decide (e.startPc ≤ pc) && decide (pc < e.endPc) &&
    (match e.catchType with
     | none => true
     | some t => isA exCls t)

/-- Modelled from the spec: MethodId::find_exception_handler (oop/method.rs,
not under src/) walks the method's exception table in order and returns the
handler pc of the first matching entry. -/
def find_exception_handler (isA : String → String → Bool) (pc : Nat) (exCls : String) :
    List ExEntry → Option Nat
  | [] => none
  | e :: rest =>
      if entry_matches isA pc exCls e then some e.handlerPc
      else find_exception_handler isA pc exCls rest

/-- Frame::try_handle_exception (frame.rs lines 617-662): read the exception
oop's class (a null or non-instance oop is an unreachable! panic), search the
table at the current pc; on a match clear the operand stack, push the
exception as the only entry and jump to the handler; otherwise give the
exception back to the caller. -/
def try_handle_exception (isA : String → String → Bool) (st : FrameState) (ex : Option Nat) :
    Option (Except (Option Nat) FrameState) :=
  match ex with
  | none => none
  | some a =>
      match st.heap.get? a with
      | some (.inst cls) =>
          match find_exception_handler isA st.pc cls st.exTable with
          | some h => some (.ok { st with stack := [.vRef (some a)], pc := h })
          | none => some (.error (some a))
      | _ => none

/-- Result of one iteration of the interpreter loop: continue with a new
state, leave the loop (returning control to the caller frame), or a host
panic. -/
inductive StepRes where
  | cont (s : FrameState)
  | exit (s : FrameState)
  | panic
  deriving DecidableEq

/-- The pending-exception check at the bottom of each loop iteration
(frame.rs lines 371-381): no pending exception continues unchanged; a
pending exception is taken from the thread's slot and offered to
try_handle_exception — on success the loop continues at the handler, on
failure the exception is put back and the loop breaks. -/
def after_opcode (isA : String → String → Bool) (st : FrameState) : StepRes :=
  match st.pending with
  | none => .cont st
  | some ex =>
      let st' := { st with pending := none }
      match try_handle_exception isA st' ex with
      | some (.ok s) => .cont s
      | some (.error e) => .exit { st' with pending := some e }
      | none => .panic

/-- Allocate an exception instance of the given class and store it in the
thread's pending-exception slot (meet_ex in the frame-loop model; the message
is not tracked here). -/
def fr_meet_ex (st : FrameState) (cls : String) : FrameState :=
  { st with heap := st.heap ++ [.inst cls], pending := some (some st.heap.length) }

/-- Frame::iaload in the frame-loop model (same logic as iaload above). -/
def fr_iaload (st : FrameState) : Option FrameState :=
  match st.stack with
  | .vInt pos :: .vRef none :: rest => some (fr_meet_ex { st with stack := rest } J_NPE)
  | .vInt pos :: .vRef (some a) :: rest =>
      match st.heap.get? a with
      | some (.intAry ary) =>
          some (if pos < 0 ∨ ary.length ≤ pos.toNat then
                  fr_meet_ex { st with stack := rest } J_ARRAY_INDEX_OUT_OF_BOUNDS
                else { st with stack := .vInt (ary.getD pos.toNat 0) :: rest })
      | _ => none
  | _ => none

/-- One iteration of Frame::interp (frame.rs lines 130-386): read the opcode
at pc (pc past the end breaks the loop), advance pc, dispatch.  athrow pops
the reference, records it as the thread's pending exception and breaks
immediately — the pending-exception check is NOT reached for it.  Every other
opcode falls through to the after_opcode check. -/
def interp_step (isA : String → String → Bool) (st : FrameState) : StepRes :=
  match st.code.get? st.pc with
  | none => .exit { st with pc := st.pc + 1 }
  | some op =>
      let st1 := { st with pc := st.pc + 1 }
      match op with
      | .athrow =>
          match st1.stack with
          | .vRef r :: rest => .exit { st1 with stack := rest, pending := some r }
          | _ => .panic
      | .nop => after_opcode isA st1
      | .iaload =>
          match fr_iaload st1 with
          | some s => after_opcode isA s
          | none => .panic

/-- Rust/Java t-division is truncation toward zero: the quotient is the
sign-adjusted quotient of the magnitudes. -/
theorem tdiv_sign_magnitude (a b : Int) :
    Int.tdiv a b = a.sign * b.sign * ((a.natAbs / b.natAbs : Nat) : Int) := by
  rcases a with m | m <;> rcases b with n | n <;>
    rcases m with _ | m <;> rcases n with _ | n <;>
      simp [Int.tdiv, Int.sign, Int.natAbs]

/-- Looking up the address just past a heap prefix yields the object placed
there. -/
theorem heap_get_at (pre : List HObj) (x : HObj) (post : List HObj) :
    (pre ++ x :: post).get? pre.length = some x := by
  induction pre with
  | nil => rfl
  | cons h t ih => simpa using ih

/-- On nonnegative rationals truncation toward zero is the floor. -/
theorem jtrunc_eq_floor (q : ℚ) (h : 0 ≤ q) : jtrunc q = ⌊q⌋ := by
  unfold jtrunc
  rw [Int.tdiv_eq_ediv (Rat.num_nonneg.mpr h) (by positivity), Rat.floor_def]

/-- Truncation toward zero is odd. -/
theorem jtrunc_neg (q : ℚ) : jtrunc (-q) = -jtrunc q := by
  unfold jtrunc
  rw [Rat.neg_num, Rat.neg_den, Int.neg_tdiv]

/-- A rational strictly above a nonnegative integer truncates to at least
that integer. -/
theorem jtrunc_ge (m : Int) (q : ℚ) (hm : 0 ≤ m) (h : (m : ℚ) < q) : m ≤ jtrunc q := by
  have hq : (0 : ℚ) ≤ q := le_trans (by exact_mod_cast hm) (le_of_lt h)
  rw [jtrunc_eq_floor q hq]
  exact Int.le_floor.mpr (le_of_lt h)

/-- A rational strictly below a nonpositive integer truncates to at most
that integer. -/
theorem jtrunc_le (m : Int) (q : ℚ) (hm : m ≤ 0) (h : q < (m : ℚ)) : jtrunc q ≤ m := by
  have h2 : ((-m : Int) : ℚ) < -q := by
    push_cast
    linarith
  have h3 := jtrunc_ge (-m) (-q) (by omega) h2
  rw [jtrunc_neg] at h3
  omega

theorem sat32_high (n : Int) (h : i32max ≤ n) : sat32 n = i32max := by
  unfold sat32 i32max i32min at *
  rcases lt_or_eq_of_le h with h' | h'
  · rw [if_neg (by omega), if_pos h']
  · rw [if_neg (by omega), if_neg (by omega), ← h']

theorem sat32_low (n : Int) (h : n ≤ i32min) : sat32 n = i32min := by
  unfold sat32 i32max i32min at *
  rcases lt_or_eq_of_le h with h' | h'
  · rw [if_pos h']
  · rw [if_neg (by omega), if_neg (by omega), h']

theorem sat64_high (n : Int) (h : i64max ≤ n) : sat64 n = i64max := by
  unfold sat64 i64max i64min at *
  rcases lt_or_eq_of_le h with h' | h'
  · rw [if_neg (by omega), if_pos h']
  · rw [if_neg (by omega), if_neg (by omega), ← h']

theorem sat64_low (n : Int) (h : n ≤ i64min) : sat64 n = i64min := by
  unfold sat64 i64max i64min at *
  rcases lt_or_eq_of_le h with h' | h'
  · rw [if_pos h']
  · rw [if_neg (by omega), if_neg (by omega), h']

/-- Recomposing the big-endian bytes of a u64 gives back its low 64 bits. -/
theorem beBytes_roundtrip64 (m : Nat) : beBytesToNat (u64ToBeBytes m) = m % 2 ^ 64 := by
  simp only [beBytesToNat, u64ToBeBytes, List.foldl]
  omega

/-- Recomposing the big-endian bytes of a u32 gives back its low 32 bits. -/
theorem beBytes_roundtrip32 (m : Nat) : beBytesToNat (u32ToBeBytes m) = m % 2 ^ 32 := by
  simp only [beBytesToNat, u32ToBeBytes, List.foldl]
  omega

/-- The i64-to-u64 reinterpretation inverts the u64-to-i64 one. -/
theorem toUnsigned_toSigned (n : Nat) : toUnsigned64 (toSigned64 n) = n % 2 ^ 64 := by
  simp only [toUnsigned64, toSigned64]
  split <;> omega

/-- C1: lcmp, fcmpl, fcmpg, dcmpl and dcmpg push +1 when v1 > v2, -1 when
v1 < v2 and 0 when the values are equal, where v1 is the value pushed first
(below v2, so v2 is popped first); a NaN operand yields -1 for the l forms
and +1 for the g forms.  In the statement a and x stand for v1 (deeper
slot), b and y for v2 (top of stack). -/
theorem C1_cmp_opcodes (a b : Int) (x y : JFloat) (rest : List Val) (heap : List HObj)
    (e : Option JEx) :
    lcmp ⟨.vLong b :: .vLong a :: rest, heap, e⟩ =
      some ⟨.vInt (if a > b then 1 else if a < b then -1 else 0) :: rest, heap, e⟩
    ∧ fcmpl ⟨.vFloat y :: .vFloat x :: rest, heap, e⟩ =
      some ⟨.vInt (if jfIsNan x || jfIsNan y then -1
                   else if jfGt x y then 1
                   else if jfLt x y then -1 else 0) :: rest, heap, e⟩
    ∧ fcmpg ⟨.vFloat y :: .vFloat x :: rest, heap, e⟩ =
      some ⟨.vInt (if jfIsNan x || jfIsNan y then 1
                   else if jfGt x y then 1
                   else if jfLt x y then -1 else 0) :: rest, heap, e⟩
    ∧ dcmpl ⟨.vDouble y :: .vDouble x :: rest, heap, e⟩ =
      some ⟨.vInt (if jfIsNan x || jfIsNan y then -1
                   else if jfGt x y then 1
                   else if jfLt x y then -1 else 0) :: rest, heap, e⟩
    ∧ dcmpg ⟨.vDouble y :: .vDouble x :: rest, heap, e⟩ =
      some ⟨.vInt (if jfIsNan x || jfIsNan y then 1
                   else if jfGt x y then 1
                   else if jfLt x y then -1 else 0) :: rest, heap, e⟩ := by
  refine ⟨?_, ?_, ?_, ?_, ?_⟩
  · simp only [lcmp]
    rcases lt_trichotomy a b with h | h | h
    · simp [h, lt_asymm h]
    · subst h
      simp
    · simp [h, lt_asymm h]
  · cases x <;> cases y <;> simp [fcmpl, jfGt, jfLt, jfIsNan]
    case finite.finite p q =>
      rcases lt_trichotomy p q with h | h | h
      · simp [h, lt_asymm h]
      · subst h
        simp
      · simp [h, lt_asymm h]
  · cases x <;> cases y <;> simp [fcmpg, jfGt, jfLt, jfIsNan]
    case finite.finite p q =>
      rcases lt_trichotomy p q with h | h | h
      · simp [h, lt_asymm h]
      · subst h
        simp
      · simp [h, lt_asymm h]
  · cases x <;> cases y <;> simp [dcmpl, jfGt, jfLt, jfIsNan]
    case finite.finite p q =>
      rcases lt_trichotomy p q with h | h | h
      · simp [h, lt_asymm h]
      · subst h
        simp
      · simp [h, lt_asymm h]
  · cases x <;> cases y <;> simp [dcmpg, jfGt, jfLt, jfIsNan]
    case finite.finite p q =>
      rcases lt_trichotomy p q with h | h | h
      · simp [h, lt_asymm h]
      · subst h
        simp
      · simp [h, lt_asymm h]

/-- C2 counterexample: the pending ArithmeticException raised by idiv on a
zero divisor carries the message "divide by zero", not the claimed
"/ by zero"; moreover idiv at dividend i32::MIN and divisor -1 is a Rust
division-overflow panic (none), not a pushed quotient. -/
theorem C2_counterexample :
    (idiv ⟨[.vInt 0, .vInt 5], [], none⟩ =
       some ⟨[], [], some ⟨J_ARITHMETIC_EX, some ("divide by zero")⟩⟩
     ∧ "divide by zero" ≠ "/ by zero")
    ∧ idiv ⟨[.vInt (-1), .vInt i32min], [], none⟩ = none := by
  refine ⟨⟨rfl, by decide⟩, by decide⟩

/-- C2 (amended): idiv, ldiv, irem and lrem with a zero divisor set a
pending ArithmeticException whose message is "divide by zero" and push
nothing; with a non-zero divisor, except for the overflowing pair
(MIN, -1) where the interpreter panics, div pushes the quotient truncated
toward zero (the final conjunct characterizes Int.tdiv as the sign-adjusted
magnitude quotient) and irem/lrem push a - (a/b)*b. -/
theorem C2_div_rem_amended (a b : Int) (rest : List Val) (heap : List HObj) :
    (idiv ⟨.vInt b :: .vInt a :: rest, heap, none⟩ =
       if b = 0 then some ⟨rest, heap, some ⟨J_ARITHMETIC_EX, some ("divide by zero")⟩⟩
       else if a = i32min ∧ b = -1 then none
       else some ⟨.vInt (Int.tdiv a b) :: rest, heap, none⟩)
    ∧ (irem ⟨.vInt b :: .vInt a :: rest, heap, none⟩ =
       if b = 0 then some ⟨rest, heap, some ⟨J_ARITHMETIC_EX, some ("divide by zero")⟩⟩
       else if a = i32min ∧ b = -1 then none
       else some ⟨.vInt (a - Int.tdiv a b * b) :: rest, heap, none⟩)
    ∧ (ldiv ⟨.vLong b :: .vLong a :: rest, heap, none⟩ =
       if b = 0 then some ⟨rest, heap, some ⟨J_ARITHMETIC_EX, some ("divide by zero")⟩⟩
       else if a = i64min ∧ b = -1 then none
       else some ⟨.vLong (Int.tdiv a b) :: rest, heap, none⟩)
    ∧ (lrem ⟨.vLong b :: .vLong a :: rest, heap, none⟩ =
       if b = 0 then some ⟨rest, heap, some ⟨J_ARITHMETIC_EX, some ("divide by zero")⟩⟩
       else if a = i64min ∧ b = -1 then none
       else some ⟨.vLong (a - Int.tdiv a b * b) :: rest, heap, none⟩)
    ∧ (∀ x y : Int, Int.tdiv x y = x.sign * y.sign * ((x.natAbs / y.natAbs : Nat) : Int)) :=
  ⟨rfl, rfl, rfl, rfl, tdiv_sign_magnitude⟩

/-- C3: the claim is right (fdiv and ddiv should follow IEEE-754 and never
raise) and the code is wrong — at the failing input v1 = 1.0, v2 = 0.0 both
opcodes set a pending ArithmeticException("divide by zero") instead of
pushing +Infinity. -/
theorem C3_fdiv_zero_raises :
    fdiv ⟨[.vFloat (.finite 0), .vFloat (.finite 1)], [], none⟩ =
      some ⟨[], [], some ⟨J_ARITHMETIC_EX, some ("divide by zero")⟩⟩
    ∧ ddiv ⟨[.vDouble (.finite 0), .vDouble (.finite 1)], [], none⟩ =
      some ⟨[], [], some ⟨J_ARITHMETIC_EX, some ("divide by zero")⟩⟩ := by
  constructor <;> decide

/-- C6: the claim is right (the spec requires wrap-on-overflow with no
panic) and the code is wrong for negation — at the failing inputs
ineg of i32::MIN and lneg of i64::MIN the unchecked `-` operator overflows
(a panic under checked arithmetic, modelled none) instead of wrapping,
while iadd, isub, imul and ladd do wrap two's-complement as claimed. -/
theorem C6_neg_overflow_panics :
    ineg ⟨[.vInt i32min], [], none⟩ = none
    ∧ lneg ⟨[.vLong i64min], [], none⟩ = none
    ∧ iadd ⟨[.vInt 1, .vInt i32max], [], none⟩ = some ⟨[.vInt i32min], [], none⟩
    ∧ isub ⟨[.vInt 1, .vInt i32min], [], none⟩ = some ⟨[.vInt i32max], [], none⟩
    ∧ imul ⟨[.vInt 2, .vInt (2 ^ 30)], [], none⟩ = some ⟨[.vInt i32min], [], none⟩
    ∧ ladd ⟨[.vLong 1, .vLong i64max], [], none⟩ = some ⟨[.vLong i64min], [], none⟩
    ∧ lneg ⟨[.vLong 5], [], none⟩ = some ⟨[.vLong (-5)], [], none⟩
    ∧ ineg ⟨[.vInt 5], [], none⟩ = some ⟨[.vInt (-5)], [], none⟩ := by
  refine ⟨by decide, by decide, by decide, by decide, by decide, by decide, by decide, by decide⟩

/-- C4: every array load and store opcode pops the index before the array
reference (loads pop index then arrayref; stores pop the value first, then
index, then arrayref); a null array reference sets a pending
NullPointerException, and an out-of-range index (index < 0 or
index >= length) sets a pending ArrayIndexOutOfBoundsException whose message
is exactly "length is L, but index is I" with the decimal length and
index. -/
theorem C4_array_npe_and_bounds (pos v vl : Int) (vf vd : JFloat) (vr : Option Nat)
    (rest : List Val) (pre post heap : List HObj) (e : Option JEx)
    (li ll lb lc ls : List Int) (lf ld2 : List JFloat) (lr : List (Option Nat)) :
    (iaload ⟨.vInt pos :: .vRef none :: rest, heap, e⟩ = some ⟨rest, heap, some ⟨J_NPE, none⟩⟩)
    ∧ (laload ⟨.vInt pos :: .vRef none :: rest, heap, e⟩ = some ⟨rest, heap, some ⟨J_NPE, none⟩⟩)
    ∧ (faload ⟨.vInt pos :: .vRef none :: rest, heap, e⟩ = some ⟨rest, heap, some ⟨J_NPE, none⟩⟩)
    ∧ (daload ⟨.vInt pos :: .vRef none :: rest, heap, e⟩ = some ⟨rest, heap, some ⟨J_NPE, none⟩⟩)
    ∧ (aaload ⟨.vInt pos :: .vRef none :: rest, heap, e⟩ = some ⟨rest, heap, some ⟨J_NPE, none⟩⟩)
    ∧ (baload ⟨.vInt pos :: .vRef none :: rest, heap, e⟩ = some ⟨rest, heap, some ⟨J_NPE, none⟩⟩)
    ∧ (caload ⟨.vInt pos :: .vRef none :: rest, heap, e⟩ = some ⟨rest, heap, some ⟨J_NPE, none⟩⟩)
    ∧ (saload ⟨.vInt pos :: .vRef none :: rest, heap, e⟩ = some ⟨rest, heap, some ⟨J_NPE, none⟩⟩)
    ∧ (iastore ⟨.vInt v :: .vInt pos :: .vRef none :: rest, heap, e⟩ = some ⟨rest, heap, some ⟨J_NPE, none⟩⟩)
    ∧ (lastore ⟨.vLong vl :: .vInt pos :: .vRef none :: rest, heap, e⟩ = some ⟨rest, heap, some ⟨J_NPE, none⟩⟩)
    ∧ (fastore ⟨.vFloat vf :: .vInt pos :: .vRef none :: rest, heap, e⟩ = some ⟨rest, heap, some ⟨J_NPE, none⟩⟩)
    ∧ (dastore ⟨.vDouble vd :: .vInt pos :: .vRef none :: rest, heap, e⟩ = some ⟨rest, heap, some ⟨J_NPE, none⟩⟩)
    ∧ (aastore ⟨.vRef vr :: .vInt pos :: .vRef none :: rest, heap, e⟩ = some ⟨rest, heap, some ⟨J_NPE, none⟩⟩)
    ∧ (bastore ⟨.vInt v :: .vInt pos :: .vRef none :: rest, heap, e⟩ = some ⟨rest, heap, some ⟨J_NPE, none⟩⟩)
    ∧ (castore ⟨.vInt v :: .vInt pos :: .vRef none :: rest, heap, e⟩ = some ⟨rest, heap, some ⟨J_NPE, none⟩⟩)
    ∧ (sastore ⟨.vInt v :: .vInt pos :: .vRef none :: rest, heap, e⟩ = some ⟨rest, heap, some ⟨J_NPE, none⟩⟩)
    ∧ (iaload ⟨.vInt pos :: .vRef (some pre.length) :: rest, pre ++ .intAry li :: post, e⟩ =
      some (if pos < 0 ∨ (li.length : Int) ≤ pos then
              ⟨rest, pre ++ .intAry li :: post,
               some ⟨J_ARRAY_INDEX_OUT_OF_BOUNDS,
                     some ("length is " ++ toString li.length ++ ", but index is " ++ toString pos)⟩⟩
            else ⟨.vInt (li.getD pos.toNat 0) :: rest, pre ++ .intAry li :: post, e⟩))
    ∧ (laload ⟨.vInt pos :: .vRef (some pre.length) :: rest, pre ++ .longAry ll :: post, e⟩ =
      some (if pos < 0 ∨ (ll.length : Int) ≤ pos then
              ⟨rest, pre ++ .longAry ll :: post,
               some ⟨J_ARRAY_INDEX_OUT_OF_BOUNDS,
                     some ("length is " ++ toString ll.length ++ ", but index is " ++ toString pos)⟩⟩
            else ⟨.vLong (ll.getD pos.toNat 0) :: rest, pre ++ .longAry ll :: post, e⟩))
    ∧ (faload ⟨.vInt pos :: .vRef (some pre.length) :: rest, pre ++ .floatAry lf :: post, e⟩ =
      some (if pos < 0 ∨ (lf.length : Int) ≤ pos then
              ⟨rest, pre ++ .floatAry lf :: post,
               some ⟨J_ARRAY_INDEX_OUT_OF_BOUNDS,
                     some ("length is " ++ toString lf.length ++ ", but index is " ++ toString pos)⟩⟩
            else ⟨.vFloat (lf.getD pos.toNat .nan) :: rest, pre ++ .floatAry lf :: post, e⟩))
    ∧ (daload ⟨.vInt pos :: .vRef (some pre.length) :: rest, pre ++ .doubleAry ld2 :: post, e⟩ =
      some (if pos < 0 ∨ (ld2.length : Int) ≤ pos then
              ⟨rest, pre ++ .doubleAry ld2 :: post,
               some ⟨J_ARRAY_INDEX_OUT_OF_BOUNDS,
                     some ("length is " ++ toString ld2.length ++ ", but index is " ++ toString pos)⟩⟩
            else ⟨.vDouble (ld2.getD pos.toNat .nan) :: rest, pre ++ .doubleAry ld2 :: post, e⟩))
    ∧ (aaload ⟨.vInt pos :: .vRef (some pre.length) :: rest, pre ++ .refAry lr :: post, e⟩ =
      some (if pos < 0 ∨ (lr.length : Int) ≤ pos then
              ⟨rest, pre ++ .refAry lr :: post,
               some ⟨J_ARRAY_INDEX_OUT_OF_BOUNDS,
                     some ("length is " ++ toString lr.length ++ ", but index is " ++ toString pos)⟩⟩
            else ⟨.vRef (lr.getD pos.toNat none) :: rest, pre ++ .refAry lr :: post, e⟩))
    ∧ (baload ⟨.vInt pos :: .vRef (some pre.length) :: rest, pre ++ .byteAry lb :: post, e⟩ =
      some (if pos < 0 ∨ (lb.length : Int) ≤ pos then
              ⟨rest, pre ++ .byteAry lb :: post,
               some ⟨J_ARRAY_INDEX_OUT_OF_BOUNDS,
                     some ("length is " ++ toString lb.length ++ ", but index is " ++ toString pos)⟩⟩
            else ⟨.vInt (lb.getD pos.toNat 0) :: rest, pre ++ .byteAry lb :: post, e⟩))
    ∧ (caload ⟨.vInt pos :: .vRef (some pre.length) :: rest, pre ++ .charAry lc :: post, e⟩ =
      some (if pos < 0 ∨ (lc.length : Int) ≤ pos then
              ⟨rest, pre ++ .charAry lc :: post,
               some ⟨J_ARRAY_INDEX_OUT_OF_BOUNDS,
                     some ("length is " ++ toString lc.length ++ ", but index is " ++ toString pos)⟩⟩
            else ⟨.vInt (lc.getD pos.toNat 0) :: rest, pre ++ .charAry lc :: post, e⟩))
    ∧ (saload ⟨.vInt pos :: .vRef (some pre.length) :: rest, pre ++ .shortAry ls :: post, e⟩ =
      some (if pos < 0 ∨ (ls.length : Int) ≤ pos then
              ⟨rest, pre ++ .shortAry ls :: post,
               some ⟨J_ARRAY_INDEX_OUT_OF_BOUNDS,
                     some ("length is " ++ toString ls.length ++ ", but index is " ++ toString pos)⟩⟩
            else ⟨.vInt (ls.getD pos.toNat 0) :: rest, pre ++ .shortAry ls :: post, e⟩))
    ∧ (iastore ⟨.vInt v :: .vInt pos :: .vRef (some pre.length) :: rest, pre ++ .intAry li :: post, e⟩ =
      some (if pos < 0 ∨ (li.length : Int) ≤ pos then
              ⟨rest, pre ++ .intAry li :: post,
               some ⟨J_ARRAY_INDEX_OUT_OF_BOUNDS,
                     some ("length is " ++ toString li.length ++ ", but index is " ++ toString pos)⟩⟩
            else ⟨rest, (pre ++ .intAry li :: post).set pre.length (.intAry (li.set pos.toNat v)), e⟩))
    ∧ (lastore ⟨.vLong vl :: .vInt pos :: .vRef (some pre.length) :: rest, pre ++ .longAry ll :: post, e⟩ =
      some (if pos < 0 ∨ (ll.length : Int) ≤ pos then
              ⟨rest, pre ++ .longAry ll :: post,
               some ⟨J_ARRAY_INDEX_OUT_OF_BOUNDS,
                     some ("length is " ++ toString ll.length ++ ", but index is " ++ toString pos)⟩⟩
            else ⟨rest, (pre ++ .longAry ll :: post).set pre.length (.longAry (ll.set pos.toNat vl)), e⟩))
    ∧ (fastore ⟨.vFloat vf :: .vInt pos :: .vRef (some pre.length) :: rest, pre ++ .floatAry lf :: post, e⟩ =
      some (if pos < 0 ∨ (lf.length : Int) ≤ pos then
              ⟨rest, pre ++ .floatAry lf :: post,
               some ⟨J_ARRAY_INDEX_OUT_OF_BOUNDS,
                     some ("length is " ++ toString lf.length ++ ", but index is " ++ toString pos)⟩⟩
            else ⟨rest, (pre ++ .floatAry lf :: post).set pre.length (.floatAry (lf.set pos.toNat vf)), e⟩))
    ∧ (dastore ⟨.vDouble vd :: .vInt pos :: .vRef (some pre.length) :: rest, pre ++ .doubleAry ld2 :: post, e⟩ =
      some (if pos < 0 ∨ (ld2.length : Int) ≤ pos then
              ⟨rest, pre ++ .doubleAry ld2 :: post,
               some ⟨J_ARRAY_INDEX_OUT_OF_BOUNDS,
                     some ("length is " ++ toString ld2.length ++ ", but index is " ++ toString pos)⟩⟩
            else ⟨rest, (pre ++ .doubleAry ld2 :: post).set pre.length (.doubleAry (ld2.set pos.toNat vd)), e⟩))
    ∧ (aastore ⟨.vRef vr :: .vInt pos :: .vRef (some pre.length) :: rest, pre ++ .refAry lr :: post, e⟩ =
      some (if pos < 0 ∨ (lr.length : Int) ≤ pos then
              ⟨rest, pre ++ .refAry lr :: post,
               some ⟨J_ARRAY_INDEX_OUT_OF_BOUNDS,
                     some ("length is " ++ toString lr.length ++ ", but index is " ++ toString pos)⟩⟩
            else ⟨rest, (pre ++ .refAry lr :: post).set pre.length (.refAry (lr.set pos.toNat vr)), e⟩))
    ∧ (bastore ⟨.vInt v :: .vInt pos :: .vRef (some pre.length) :: rest, pre ++ .byteAry lb :: post, e⟩ =
      some (if pos < 0 ∨ (lb.length : Int) ≤ pos then
              ⟨rest, pre ++ .byteAry lb :: post,
               some ⟨J_ARRAY_INDEX_OUT_OF_BOUNDS,
                     some ("length is " ++ toString lb.length ++ ", but index is " ++ toString pos)⟩⟩
            else ⟨rest, (pre ++ .byteAry lb :: post).set pre.length (.byteAry (lb.set pos.toNat (v % 2 ^ 8))), e⟩))
    ∧ (castore ⟨.vInt v :: .vInt pos :: .vRef (some pre.length) :: rest, pre ++ .charAry lc :: post, e⟩ =
      some (if pos < 0 ∨ (lc.length : Int) ≤ pos then
              ⟨rest, pre ++ .charAry lc :: post,
               some ⟨J_ARRAY_INDEX_OUT_OF_BOUNDS,
                     some ("length is " ++ toString lc.length ++ ", but index is " ++ toString pos)⟩⟩
            else ⟨rest, (pre ++ .charAry lc :: post).set pre.length (.charAry (lc.set pos.toNat (v % 2 ^ 16))), e⟩))
    ∧ (sastore ⟨.vInt v :: .vInt pos :: .vRef (some pre.length) :: rest, pre ++ .shortAry ls :: post, e⟩ =
      some (if pos < 0 ∨ (ls.length : Int) ≤ pos then
              ⟨rest, pre ++ .shortAry ls :: post,
               some ⟨J_ARRAY_INDEX_OUT_OF_BOUNDS,
                     some ("length is " ++ toString ls.length ++ ", but index is " ++ toString pos)⟩⟩
            else ⟨rest, (pre ++ .shortAry ls :: post).set pre.length (.shortAry (ls.set pos.toNat (wrap16 v))), e⟩)) := by
  refine ⟨rfl, rfl, rfl, rfl, rfl, rfl, rfl, rfl, rfl, rfl, rfl, rfl, rfl, rfl, rfl, rfl, ?_, ?_, ?_, ?_, ?_, ?_, ?_, ?_, ?_, ?_, ?_, ?_, ?_, ?_, ?_, ?_⟩ <;>
    simp only [iaload, laload, faload, daload, aaload, baload, caload, saload,
               iastore, lastore, fastore, dastore, aastore, bastore, castore, sastore,
               heap_get_at, iarray_load, array_store, index_oob_ex, index_oob_msg] <;>
    split_ifs <;> first | rfl | (exfalso; omega)

/-- C10: when any of the eight array store opcodes fails its bounds check,
no element is written — the heap (hence the target array's entire contents)
is exactly the one before the opcode — and besides the three popped operands
the only state change is the pending-exception slot being set to the
AIOOBE. -/
theorem C10_store_oob_preserves (pos v vl : Int) (vf vd : JFloat) (vr : Option Nat)
    (rest : List Val) (pre post : List HObj) (e : Option JEx)
    (li ll lb lc ls : List Int) (lf ld2 : List JFloat) (lr : List (Option Nat)) :
    ((pos < 0 ∨ (li.length : Int) ≤ pos) →
      iastore ⟨.vInt v :: .vInt pos :: .vRef (some pre.length) :: rest, pre ++ .intAry li :: post, e⟩ =
        some ⟨rest, pre ++ .intAry li :: post, some (index_oob_ex li.length pos)⟩)
    ∧ ((pos < 0 ∨ (ll.length : Int) ≤ pos) →
      lastore ⟨.vLong vl :: .vInt pos :: .vRef (some pre.length) :: rest, pre ++ .longAry ll :: post, e⟩ =
        some ⟨rest, pre ++ .longAry ll :: post, some (index_oob_ex ll.length pos)⟩)
    ∧ ((pos < 0 ∨ (lf.length : Int) ≤ pos) →
      fastore ⟨.vFloat vf :: .vInt pos :: .vRef (some pre.length) :: rest, pre ++ .floatAry lf :: post, e⟩ =
        some ⟨rest, pre ++ .floatAry lf :: post, some (index_oob_ex lf.length pos)⟩)
    ∧ ((pos < 0 ∨ (ld2.length : Int) ≤ pos) →
      dastore ⟨.vDouble vd :: .vInt pos :: .vRef (some pre.length) :: rest, pre ++ .doubleAry ld2 :: post, e⟩ =
        some ⟨rest, pre ++ .doubleAry ld2 :: post, some (index_oob_ex ld2.length pos)⟩)
    ∧ ((pos < 0 ∨ (lr.length : Int) ≤ pos) →
      aastore ⟨.vRef vr :: .vInt pos :: .vRef (some pre.length) :: rest, pre ++ .refAry lr :: post, e⟩ =
        some ⟨rest, pre ++ .refAry lr :: post, some (index_oob_ex lr.length pos)⟩)
    ∧ ((pos < 0 ∨ (lb.length : Int) ≤ pos) →
      bastore ⟨.vInt v :: .vInt pos :: .vRef (some pre.length) :: rest, pre ++ .byteAry lb :: post, e⟩ =
        some ⟨rest, pre ++ .byteAry lb :: post, some (index_oob_ex lb.length pos)⟩)
    ∧ ((pos < 0 ∨ (lc.length : Int) ≤ pos) →
      castore ⟨.vInt v :: .vInt pos :: .vRef (some pre.length) :: rest, pre ++ .charAry lc :: post, e⟩ =
        some ⟨rest, pre ++ .charAry lc :: post, some (index_oob_ex lc.length pos)⟩)
    ∧ ((pos < 0 ∨ (ls.length : Int) ≤ pos) →
      sastore ⟨.vInt v :: .vInt pos :: .vRef (some pre.length) :: rest, pre ++ .shortAry ls :: post, e⟩ =
        some ⟨rest, pre ++ .shortAry ls :: post, some (index_oob_ex ls.length pos)⟩) := by
  refine ⟨?_, ?_, ?_, ?_, ?_, ?_, ?_, ?_⟩ <;>
    intro h <;>
    simp only [iastore, lastore, fastore, dastore, aastore, bastore, castore, sastore,
               heap_get_at, array_store, index_oob_ex, index_oob_msg] <;>
    rw [if_pos (by omega)]

/-- Witness for C10: each store conjunct applied at a concrete
out-of-bounds input (index 3 on a length-3 array, and index -1). -/
theorem C10_witness :
    iastore ⟨[.vInt 7, .vInt 3, .vRef (some 0)], [.intAry [1, 2, 3]], none⟩ =
      some ⟨[], [.intAry [1, 2, 3]], some (index_oob_ex 3 3)⟩
    ∧ lastore ⟨[.vLong 7, .vInt 3, .vRef (some 0)], [.longAry [1, 2, 3]], none⟩ =
      some ⟨[], [.longAry [1, 2, 3]], some (index_oob_ex 3 3)⟩
    ∧ fastore ⟨[.vFloat (.finite 1), .vInt (-1), .vRef (some 0)], [.floatAry [.nan]], none⟩ =
      some ⟨[], [.floatAry [.nan]], some (index_oob_ex 1 (-1))⟩
    ∧ dastore ⟨[.vDouble (.finite 1), .vInt (-1), .vRef (some 0)], [.doubleAry [.nan]], none⟩ =
      some ⟨[], [.doubleAry [.nan]], some (index_oob_ex 1 (-1))⟩
    ∧ aastore ⟨[.vRef none, .vInt 2, .vRef (some 0)], [.refAry [none, none]], none⟩ =
      some ⟨[], [.refAry [none, none]], some (index_oob_ex 2 2)⟩
    ∧ bastore ⟨[.vInt 300, .vInt 5, .vRef (some 0)], [.byteAry [0]], none⟩ =
      some ⟨[], [.byteAry [0]], some (index_oob_ex 1 5)⟩
    ∧ castore ⟨[.vInt 70000, .vInt 5, .vRef (some 0)], [.charAry [0]], none⟩ =
      some ⟨[], [.charAry [0]], some (index_oob_ex 1 5)⟩
    ∧ sastore ⟨[.vInt 40000, .vInt 5, .vRef (some 0)], [.shortAry [0]], none⟩ =
      some ⟨[], [.shortAry [0]], some (index_oob_ex 1 5)⟩ := by
  have h := C10_store_oob_preserves 3 7 7 (.finite 1) (.finite 1) none
    [] [] [] none [1, 2, 3] [1, 2, 3] [0] [0] [0] [.nan] [.nan] [none, none]
  have h2 := C10_store_oob_preserves (-1) 7 7 (.finite 1) (.finite 1) none
    [] [] [] none [] [] [] [] [] [.nan] [.nan] []
  have h3 := C10_store_oob_preserves 5 300 7 (.finite 1) (.finite 1) none
    [] [] [] none [] [] [0] [0] [0] [] [] []
  have h4 := C10_store_oob_preserves 2 7 7 (.finite 1) (.finite 1) none
    [] [] [] none [] [] [] [] [] [] [] [none, none]
  have h5 := C10_store_oob_preserves 5 70000 7 (.finite 1) (.finite 1) none
    [] [] [] none [] [] [0] [0] [0] [] [] []
  have h6 := C10_store_oob_preserves 5 40000 7 (.finite 1) (.finite 1) none
    [] [] [] none [] [] [0] [0] [0] [] [] []
  exact ⟨h.1 (by decide), h.2.1 (by decide), h2.2.2.1 (by decide), h2.2.2.2.1 (by decide),
         h4.2.2.2.2.1 (by decide), h3.2.2.2.2.2.1 (by decide),
         h5.2.2.2.2.2.2.1 (by decide), h6.2.2.2.2.2.2.2 (by decide)⟩

/-- C7: f2i, f2l, d2i and d2l push 0 for NaN, the saturated maximum/minimum
for the infinities and for finite out-of-range values; i2c zero-extends the
low 16 bits, i2b sign-extends the low 8 bits and i2s sign-extends the low
16 bits, each re-widened to int on the stack (the range and congruence
conjuncts pin down extension and re-widening). -/
theorem C7_conversions (v : Int) (rest : List Val) (heap : List HObj) (e : Option JEx) :
    (f2i ⟨.vFloat .nan :: rest, heap, e⟩ = some ⟨.vInt 0 :: rest, heap, e⟩)
    ∧ (f2i ⟨.vFloat .posInf :: rest, heap, e⟩ = some ⟨.vInt i32max :: rest, heap, e⟩)
    ∧ (f2i ⟨.vFloat .negInf :: rest, heap, e⟩ = some ⟨.vInt i32min :: rest, heap, e⟩)
    ∧ (∀ q : ℚ, (i32max : ℚ) < q →
        f2i ⟨.vFloat (.finite q) :: rest, heap, e⟩ = some ⟨.vInt i32max :: rest, heap, e⟩)
    ∧ (∀ q : ℚ, q < (i32min : ℚ) →
        f2i ⟨.vFloat (.finite q) :: rest, heap, e⟩ = some ⟨.vInt i32min :: rest, heap, e⟩)
    ∧ (f2l ⟨.vFloat .nan :: rest, heap, e⟩ = some ⟨.vLong 0 :: rest, heap, e⟩)
    ∧ (f2l ⟨.vFloat .posInf :: rest, heap, e⟩ = some ⟨.vLong i64max :: rest, heap, e⟩)
    ∧ (f2l ⟨.vFloat .negInf :: rest, heap, e⟩ = some ⟨.vLong i64min :: rest, heap, e⟩)
    ∧ (∀ q : ℚ, (i64max : ℚ) < q →
        f2l ⟨.vFloat (.finite q) :: rest, heap, e⟩ = some ⟨.vLong i64max :: rest, heap, e⟩)
    ∧ (∀ q : ℚ, q < (i64min : ℚ) →
        f2l ⟨.vFloat (.finite q) :: rest, heap, e⟩ = some ⟨.vLong i64min :: rest, heap, e⟩)
    ∧ (d2i ⟨.vDouble .nan :: rest, heap, e⟩ = some ⟨.vInt 0 :: rest, heap, e⟩)
    ∧ (d2i ⟨.vDouble .posInf :: rest, heap, e⟩ = some ⟨.vInt i32max :: rest, heap, e⟩)
    ∧ (d2i ⟨.vDouble .negInf :: rest, heap, e⟩ = some ⟨.vInt i32min :: rest, heap, e⟩)
    ∧ (∀ q : ℚ, (i32max : ℚ) < q →
        d2i ⟨.vDouble (.finite q) :: rest, heap, e⟩ = some ⟨.vInt i32max :: rest, heap, e⟩)
    ∧ (∀ q : ℚ, q < (i32min : ℚ) →
        d2i ⟨.vDouble (.finite q) :: rest, heap, e⟩ = some ⟨.vInt i32min :: rest, heap, e⟩)
    ∧ (d2l ⟨.vDouble .nan :: rest, heap, e⟩ = some ⟨.vLong 0 :: rest, heap, e⟩)
    ∧ (d2l ⟨.vDouble .posInf :: rest, heap, e⟩ = some ⟨.vLong i64max :: rest, heap, e⟩)
    ∧ (d2l ⟨.vDouble .negInf :: rest, heap, e⟩ = some ⟨.vLong i64min :: rest, heap, e⟩)
    ∧ (∀ q : ℚ, (i64max : ℚ) < q →
        d2l ⟨.vDouble (.finite q) :: rest, heap, e⟩ = some ⟨.vLong i64max :: rest, heap, e⟩)
    ∧ (∀ q : ℚ, q < (i64min : ℚ) →
        d2l ⟨.vDouble (.finite q) :: rest, heap, e⟩ = some ⟨.vLong i64min :: rest, heap, e⟩)
    ∧ (i2c ⟨.vInt v :: rest, heap, e⟩ = some ⟨.vInt (v % 2 ^ 16) :: rest, heap, e⟩)
    ∧ (0 ≤ v % 2 ^ 16 ∧ v % 2 ^ 16 < 2 ^ 16 ∧ (v - v % 2 ^ 16) % 2 ^ 16 = 0)
    ∧ (i2b ⟨.vInt v :: rest, heap, e⟩ = some ⟨.vInt (wrap8 v) :: rest, heap, e⟩)
    ∧ (-(2 ^ 7) ≤ wrap8 v ∧ wrap8 v < 2 ^ 7 ∧ (v - wrap8 v) % 2 ^ 8 = 0)
    ∧ (i2s ⟨.vInt v :: rest, heap, e⟩ = some ⟨.vInt (wrap16 v) :: rest, heap, e⟩)
    ∧ (-(2 ^ 15) ≤ wrap16 v ∧ wrap16 v < 2 ^ 15 ∧ (v - wrap16 v) % 2 ^ 16 = 0) := by
  refine ⟨rfl, rfl, rfl, ?_, ?_, rfl, rfl, rfl, ?_, ?_,
          rfl, rfl, rfl, ?_, ?_, rfl, rfl, rfl, ?_, ?_,
          rfl, ⟨by omega, by omega, by omega⟩,
          rfl, ⟨?_, ?_, ?_⟩, rfl, ⟨?_, ?_, ?_⟩⟩
  · intro q h
    simp only [f2i]
    rw [sat32_high _ (jtrunc_ge _ _ (by norm_num [i32max]) h)]
  · intro q h
    simp only [f2i]
    rw [sat32_low _ (jtrunc_le _ _ (by norm_num [i32min]) h)]
  · intro q h
    simp only [f2l]
    rw [sat64_high _ (jtrunc_ge _ _ (by norm_num [i64max]) h)]
  · intro q h
    simp only [f2l]
    rw [sat64_low _ (jtrunc_le _ _ (by norm_num [i64min]) h)]
  · intro q h
    simp only [d2i]
    rw [sat32_high _ (jtrunc_ge _ _ (by norm_num [i32max]) h)]
  · intro q h
    simp only [d2i]
    rw [sat32_low _ (jtrunc_le _ _ (by norm_num [i32min]) h)]
  · intro q h
    simp only [d2l]
    rw [sat64_high _ (jtrunc_ge _ _ (by norm_num [i64max]) h)]
  · intro q h
    simp only [d2l]
    rw [sat64_low _ (jtrunc_le _ _ (by norm_num [i64min]) h)]
  all_goals (simp only [wrap8, wrap16]; omega)

/-- Witness for C7: the saturating conversions applied at concrete
out-of-range rationals, with each bound hypothesis discharged. -/
theorem C7_witness :
    f2i ⟨[.vFloat (.finite (2 ^ 31))], [], none⟩ = some ⟨[.vInt i32max], [], none⟩
    ∧ f2i ⟨[.vFloat (.finite (-(2 ^ 31) - 1))], [], none⟩ = some ⟨[.vInt i32min], [], none⟩
    ∧ f2l ⟨[.vFloat (.finite (2 ^ 63))], [], none⟩ = some ⟨[.vLong i64max], [], none⟩
    ∧ f2l ⟨[.vFloat (.finite (-(2 ^ 63) - 1))], [], none⟩ = some ⟨[.vLong i64min], [], none⟩
    ∧ d2i ⟨[.vDouble (.finite (2 ^ 31))], [], none⟩ = some ⟨[.vInt i32max], [], none⟩
    ∧ d2i ⟨[.vDouble (.finite (-(2 ^ 31) - 1))], [], none⟩ = some ⟨[.vInt i32min], [], none⟩
    ∧ d2l ⟨[.vDouble (.finite (2 ^ 63))], [], none⟩ = some ⟨[.vLong i64max], [], none⟩
    ∧ d2l ⟨[.vDouble (.finite (-(2 ^ 63) - 1))], [], none⟩ = some ⟨[.vLong i64min], [], none⟩ := by
  have h := C7_conversions 0 [] [] none
  refine ⟨h.2.2.2.1 _ (by norm_num [i32max]),
          h.2.2.2.2.1 _ (by norm_num [i32min]),
          h.2.2.2.2.2.2.2.2.1 _ (by norm_num [i64max]),
          h.2.2.2.2.2.2.2.2.2.1 _ (by norm_num [i64min]),
          h.2.2.2.2.2.2.2.2.2.2.2.2.2.1 _ (by norm_num [i32max]),
          h.2.2.2.2.2.2.2.2.2.2.2.2.2.2.1 _ (by norm_num [i32min]),
          h.2.2.2.2.2.2.2.2.2.2.2.2.2.2.2.2.2.2.1 _ (by norm_num [i64max]),
          h.2.2.2.2.2.2.2.2.2.2.2.2.2.2.2.2.2.2.2.1 _ (by norm_num [i64min])⟩

/-- C9: for every 64-bit pattern (toSigned64 n ranges over exactly the i64
values as n ranges over Nat), doubleToRawLongBits after longBitsToDouble is
the identity; doubleToRawLongBits and floatToRawIntBits return the raw
two's-complement reinterpretation of their argument's IEEE bit pattern — for
every pattern, hence preserving every NaN payload with no canonicalization —
and longBitsToDouble installs exactly the low 64 bits as the result's
pattern. -/
theorem C9_raw_bits (n : Nat) :
    jvm_doubleToRawLongBits (jvm_longBitsToDouble (toSigned64 n)) = toSigned64 n
    ∧ jvm_doubleToRawLongBits ⟨n⟩ = toSigned64 n
    ∧ (jvm_longBitsToDouble (toSigned64 n)).bits = n % 2 ^ 64
    ∧ jvm_floatToRawIntBits ⟨n⟩ = toSigned32 n := by
  have hb : ∀ m : Nat, jvm_doubleToRawLongBits ⟨m⟩ = toSigned64 m := by
    intro m
    simp only [jvm_doubleToRawLongBits, f64ToBits, beBytes_roundtrip64, toSigned64]
    split <;> split <;> omega
  have hlb : ∀ v : Int, jvm_longBitsToDouble v = ⟨toUnsigned64 v % 2 ^ 64⟩ := by
    intro v
    simp only [jvm_longBitsToDouble, f64FromBeBytes, beBytes_roundtrip64]
    congr 1
    omega
  refine ⟨?_, hb n, ?_, ?_⟩
  · rw [hlb, hb, toUnsigned_toSigned]
    simp only [toSigned64]
    split <;> split <;> omega
  · rw [hlb, toUnsigned_toSigned]
    show n % 2 ^ 64 % 2 ^ 64 = n % 2 ^ 64
    omega
  · simp only [jvm_floatToRawIntBits, beBytes_roundtrip32, toSigned32]
    split <;> split <;> omega

/-- C5 counterexample: at a concrete frame whose single opcode is athrow,
with a catch-all exception-table entry covering the pc and a matching
exception instance on the stack, one interpreter step exits the loop with
the exception left pending and never consults the table — even though
find_exception_handler would have produced handler 9 — whereas the claim
says every opcode with a pending exception searches the table, clears the
stack and resumes at the handler. -/
theorem C5_counterexample :
    interp_step (fun _ _ => false)
        ⟨[.athrow], 0, [.vRef (some 0)], [.inst ("java/lang/ArithmeticException")],
         [⟨0, 5, 9, none⟩], none⟩ =
      .exit ⟨[.athrow], 1, [], [.inst ("java/lang/ArithmeticException")],
             [⟨0, 5, 9, none⟩], some (some 0)⟩
    ∧ find_exception_handler (fun _ _ => false) 1 ("java/lang/ArithmeticException")
        [⟨0, 5, 9, none⟩] = some 9 := ⟨rfl, rfl⟩

/-- C5 (amended): whenever the thread has a pending exception after an
opcode OTHER THAN athrow executes, the frame searches the exception table
and the first matching entry (range covering pc, catch type assignable or
catch-all) wins — the search result is the first find (conjunct 4); on a
match the operand stack is cleared, the exception object is pushed as the
only entry, pc is set to the handler, the pending slot is cleared and the
loop continues (conjunct 2); on no match the pending exception stays set and
the loop exits (conjunct 3); no pending exception continues unchanged
(conjunct 1).  athrow instead records the popped reference as the pending
exception and exits the loop at once, without searching the current frame's
table (conjunct 5); the other modelled opcodes always fall through to the
pending-exception check (conjuncts 6 and 7). -/
theorem C5_exception_handling_amended :
    (∀ (isA : String → String → Bool) (st : FrameState), st.pending = none →
       after_opcode isA st = .cont st)
    ∧ (∀ (isA : String → String → Bool) (st : FrameState) (a : Nat) (cls : String) (hp : Nat),
        st.heap.get? a = some (.inst cls) → st.pending = some (some a) →
        find_exception_handler isA st.pc cls st.exTable = some hp →
        after_opcode isA st = .cont { st with stack := [.vRef (some a)], pc := hp, pending := none })
    ∧ (∀ (isA : String → String → Bool) (st : FrameState) (a : Nat) (cls : String),
        st.heap.get? a = some (.inst cls) → st.pending = some (some a) →
        find_exception_handler isA st.pc cls st.exTable = none →
        after_opcode isA st = .exit st)
    ∧ (∀ (isA : String → String → Bool) (pc : Nat) (exCls : String) (tbl : List ExEntry),
        find_exception_handler isA pc exCls tbl =
          (tbl.find? (entry_matches isA pc exCls)).map ExEntry.handlerPc)
    ∧ (∀ (isA : String → String → Bool) (st : FrameState) (r : Option Nat) (rest2 : List Val),
        st.code.get? st.pc = some .athrow → st.stack = .vRef r :: rest2 →
        interp_step isA st = .exit { st with pc := st.pc + 1, stack := rest2, pending := some r })
    ∧ (∀ (isA : String → String → Bool) (st : FrameState),
        st.code.get? st.pc = some .nop →
        interp_step isA st = after_opcode isA { st with pc := st.pc + 1 })
    ∧ (∀ (isA : String → String → Bool) (st s : FrameState),
        st.code.get? st.pc = some .iaload → fr_iaload { st with pc := st.pc + 1 } = some s →
        interp_step isA st = after_opcode isA s) := by
  refine ⟨?_, ?_, ?_, ?_, ?_, ?_, ?_⟩
  · intro isA st h
    simp [after_opcode, h]
  · intro isA st a cls hp hheap hpend hfind
    simp only [after_opcode, hpend, try_handle_exception, hheap, hfind]
  · intro isA st a cls hheap hpend hfind
    simp only [after_opcode, hpend, try_handle_exception, hheap, hfind]
    congr 1
    cases st
    simp_all
  · intro isA pc exCls tbl
    induction tbl with
    | nil => rfl
    | cons entry tail ih =>
        by_cases h : entry_matches isA pc exCls entry
        · simp [find_exception_handler, List.find?, h]
        · simp only [find_exception_handler, List.find?]
          rw [if_neg h, ih]
          cases h' : entry_matches isA pc exCls entry
          · simp
          · exact absurd h' h
  · intro isA st r rest2 hop hstack
    simp only [interp_step, hop, hstack]
  · intro isA st hop
    simp only [interp_step, hop]
  · intro isA st s hop hexec
    simp only [interp_step, hop, hexec]

/-- Witness for C5 (amended): each conjunct applied at concrete frames — a
quiet step, a caught exception (handler 9 wins), an uncaught one, a
first-match table lookup, an athrow exit, and the nop and iaload
fall-throughs. -/
theorem C5_witness :
    after_opcode (fun _ _ => true) ⟨[.nop], 1, [], [], [], none⟩ =
      .cont ⟨[.nop], 1, [], [], [], none⟩
    ∧ after_opcode (fun _ _ => true)
        ⟨[], 2, [.vInt 5], [.inst ("java/lang/Exception")], [⟨0, 5, 9, none⟩], some (some 0)⟩ =
      .cont ⟨[], 9, [.vRef (some 0)], [.inst ("java/lang/Exception")], [⟨0, 5, 9, none⟩], none⟩
    ∧ after_opcode (fun _ _ => true)
        ⟨[], 2, [.vInt 5], [.inst ("java/lang/Exception")], [], some (some 0)⟩ =
      .exit ⟨[], 2, [.vInt 5], [.inst ("java/lang/Exception")], [], some (some 0)⟩
    ∧ find_exception_handler (fun _ _ => true) 1 "X" [⟨2, 3, 7, none⟩] =
      (([⟨2, 3, 7, none⟩] : List ExEntry).find? (entry_matches (fun _ _ => true) 1 "X")).map
        ExEntry.handlerPc
    ∧ interp_step (fun _ _ => true) ⟨[.athrow], 0, [.vRef (some 3)], [], [], none⟩ =
      .exit ⟨[.athrow], 1, [], [], [], some (some 3)⟩
    ∧ interp_step (fun _ _ => true) ⟨[.nop], 0, [], [], [], none⟩ =
      after_opcode (fun _ _ => true) ⟨[.nop], 1, [], [], [], none⟩
    ∧ interp_step (fun _ _ => true) ⟨[.iaload], 0, [.vInt 0, .vRef (some 0)], [.intAry [42]], [], none⟩ =
      after_opcode (fun _ _ => true)
        ⟨[.iaload], 1, [.vInt 42], [.intAry [42]], [], none⟩ := by
  have h := C5_exception_handling_amended
  exact ⟨h.1 _ _ rfl,
         h.2.1 _ _ 0 ("java/lang/Exception") 9 rfl rfl rfl,
         h.2.2.1 _ _ 0 ("java/lang/Exception") rfl rfl rfl,
         h.2.2.2.1 _ 1 "X" _,
         h.2.2.2.2.1 _ _ (some 3) [] rfl rfl,
         h.2.2.2.2.2.1 _ _ rfl,
         h.2.2.2.2.2.2 _ _ _ rfl rfl⟩

/-- C8 counterexample: at a concrete non-null ARRAY reference the instanceof
opcode hits the source's unimplemented! arm and aborts (none) instead of
pushing 1 or 0, so the claim's "for every popped reference" fails. -/
theorem C8_counterexample :
    instance_of ⟨fun _ => none, fun _ => []⟩ 16 ("java/lang/Object")
      ⟨[.vRef (some 0)], [.refAry []], none⟩ = none := rfl

/-- C8 (amended): for a null reference instanceof pushes int 0; for a
non-null instance reference it pushes int 1 when the runtime class is
assignable to the target class and 0 otherwise (assignability reflexive,
last conjunct); a non-null array (or other non-instance) reference hits the
unimplemented! arm and aborts the VM instead of pushing a result. -/
theorem C8_instanceof_amended (env : ClassEnv) (fuel : Nat) (target : String)
    (rest : List Val) (heap : List HObj) (e : Option JEx) :
    (instance_of env fuel target ⟨.vRef none :: rest, heap, e⟩ = some ⟨.vInt 0 :: rest, heap, e⟩)
    ∧ (∀ (a : Nat) (cls : String), heap.get? a = some (.inst cls) →
        instance_of env fuel target ⟨.vRef (some a) :: rest, heap, e⟩ =
          some ⟨.vInt (if cmp_instance_of env fuel cls target then 1 else 0) :: rest, heap, e⟩)
    ∧ (∀ (a : Nat) (elems : List (Option Nat)), heap.get? a = some (.refAry elems) →
        instance_of env fuel target ⟨.vRef (some a) :: rest, heap, e⟩ = none)
    ∧ (∀ c : String, cmp_instance_of env (fuel + 1) c c = true) := by
  refine ⟨rfl, ?_, ?_, ?_⟩
  · intro a cls hheap
    simp only [instance_of, hheap]
  · intro a elems hheap
    simp only [instance_of, hheap]
  · intro c
    simp [cmp_instance_of]

/-- Witness for C8 (amended): a class A whose superclass is Object is judged
an instance of Object (1 pushed), null yields 0, and an array reference
aborts. -/
theorem C8_witness :
    instance_of ⟨fun s => if s = "A" then some ("java/lang/Object") else none, fun _ => []⟩ 4
        ("java/lang/Object") ⟨[.vRef (some 0)], [.inst "A"], none⟩ =
      some ⟨[.vInt 1], [.inst "A"], none⟩
    ∧ instance_of ⟨fun s => if s = "A" then some ("java/lang/Object") else none, fun _ => []⟩ 4
        ("java/lang/Object") ⟨[.vRef none], [.inst "A"], none⟩ =
      some ⟨[.vInt 0], [.inst "A"], none⟩
    ∧ instance_of ⟨fun s => if s = "A" then some ("java/lang/Object") else none, fun _ => []⟩ 4
        ("java/lang/Object") ⟨[.vRef (some 0)], [.refAry []], none⟩ = none
    ∧ cmp_instance_of ⟨fun s => if s = "A" then some ("java/lang/Object") else none, fun _ => []⟩
        5 "C" "C" = true := by
  have h := C8_instanceof_amended
    ⟨fun s => if s = "A" then some ("java/lang/Object") else none, fun _ => []⟩ 4
    ("java/lang/Object") [] [.inst "A"] none
  have h2 := C8_instanceof_amended
    ⟨fun s => if s = "A" then some ("java/lang/Object") else none, fun _ => []⟩ 4
    ("java/lang/Object") [] [.refAry []] none
  have h1 := h.2.1 0 "A" rfl
  have hc : cmp_instance_of
      ⟨fun s => if s = "A" then some ("java/lang/Object") else none, fun _ => []⟩ 4 "A"
      ("java/lang/Object") = true := by
    simp [cmp_instance_of]
  rw [hc] at h1
  exact ⟨by simpa using h1, h.1, h2.2.2.1 0 [] rfl, h.2.2.2 "C"⟩
